import Mathlib

/-!
Verification development for the bounded-time parallel scraping core of the
repository (file `searxngfinal.py`).  The Python functions are shallowly
embedded as total Lean functions:

* text is `String` / `List Char`; Python `str.lower`, `str.strip`,
  `re.sub(r"\s+", " ", ·)` and friends are hand-compiled on ASCII
  (the repository only manipulates ASCII selector names and URLs);
* the network, the thread pool and wall-clock time are replaced by explicit
  environment records: a fetch environment fixes what `requests.get` and
  `trafilatura.fetch_url` would return, a dispatcher run is driven by the
  sequence of future completions the poll loop observes, and durations are
  explicit natural numbers carried by the environment;
* BeautifulSoup parse trees are abstracted as a query-answer record `Soup`:
  for each CSS query the source performs, the record stores the text the
  query would return.  Parsing is deterministic, so a static HTML fixture is
  modelled directly by its `Soup`;
* fallible Python code is `Except PyErr`; a `try/except` boundary is a
  `match` on the `Except` value.

Python source file: `searxngfinal.py` (the second, active definitions of
`scrape_batch_parallel` and `scrape_multiple_sites_truly_parallel`).
-/

/-! ### Text utilities (`clean_text` and Python string helpers) -/

/-- Characters matched by Python `\s` / stripped by `str.strip` (ASCII). -/
def isPySpace (c : Char) : Bool :=
  c = ' ' || c = '\t' || c = '\n' || c = '\r' || c = '\x0b' || c = '\x0c'

/-- Python `str.strip()` on ASCII whitespace. -/
def pyStrip (l : List Char) : List Char :=
  ((l.dropWhile isPySpace).reverse.dropWhile isPySpace).reverse

/-- `re.sub(r"\s+", " ", ·)`: every maximal whitespace run becomes one space.
The boolean records whether the previous character was part of a run. -/
def collapseWsGo : Bool → List Char → List Char
  | _, [] => []
  | afterSpace, c :: cs =>
    if isPySpace c then
      if afterSpace then collapseWsGo true cs
      else ' ' :: collapseWsGo true cs
    else c :: collapseWsGo false cs

/-- Does `pat` (already lowercase) match a prefix of `l` case-insensitively? -/
def matchLowerPrefix (pat : List Char) (l : List Char) : Bool :=
  (l.take pat.length).map Char.toLower == pat

/-- The alternatives of the cruft-removal regex in `clean_text`, in the
order the regex alternation tries them. -/
def cruftPatterns : List (List Char) :=
  ["cookie".data, "privacy policy".data, "terms of service".data,
   "subscribe".data, "newsletter".data]

/-- One left-to-right pass of
`re.sub(r"(cookie|privacy policy|...)", "", ·, flags=IGNORECASE)`.
Fuel-indexed so the kernel can evaluate it; `fuel = length` suffices since
every step consumes at least one character. -/
def stripCruftGo : Nat → List Char → List Char
  | 0, l => l
  | _, [] => []
  | fuel + 1, c :: cs =>
    match cruftPatterns.find? (fun p => matchLowerPrefix p (c :: cs)) with
    | some p => stripCruftGo fuel ((c :: cs).drop p.length)
    | none => c :: stripCruftGo fuel cs

def stripCruft (l : List Char) : List Char := stripCruftGo l.length l

/-- `clean_text` from the source: empty in, empty out; otherwise strip,
collapse whitespace, then remove the cruft words. -/
def clean_text (s : String) : String :=
  if s = "" then ""
  else String.mk (stripCruft (collapseWsGo false (pyStrip s.data)))

/-- Python `s[:n] + "..." if len(s) > n else s`. -/
def pyTruncate (n : Nat) (s : String) : String :=
  if n < s.data.length then String.mk (s.data.take n) ++ "..." else s

/-- Python `sub in s` (substring test). -/
def containsSub (pat : List Char) : List Char → Bool
  | [] => pat.isEmpty
  | c :: cs => pat.isPrefixOf (c :: cs) || containsSub pat cs

def strContains (pat s : String) : Bool := containsSub pat.data s.data

/-- Python `" ".join l`. -/
def pyJoinSpace : List String → String
  | [] => ""
  | [s] => s
  | s :: rest => s ++ " " ++ pyJoinSpace rest

/-- Python `sep.join l` for an arbitrary separator. -/
def pyJoinWith (sep : String) : List String → String
  | [] => ""
  | [s] => s
  | s :: rest => s ++ sep ++ pyJoinWith sep rest

/-- Python `str.lower()` on ASCII. -/
def pyLower (s : String) : String := String.mk (s.data.map Char.toLower)

/-! ### URL normalisation (`get_domain`, `is_blacklisted`) -/

/-- Left-to-right non-overlapping removal of every occurrence of `"www."`,
exactly what Python `str.replace("www.", "")` performs. -/
def replAllWWW : List Char → List Char
  | 'w' :: 'w' :: 'w' :: '.' :: rest => replAllWWW rest
  | c :: cs => c :: replAllWWW cs
  | [] => []

/-- Does the string contain an occurrence of `"www."`? -/
def hasWWW : List Char → Bool
  | 'w' :: 'w' :: 'w' :: '.' :: _ => true
  | _ :: cs => hasWWW cs
  | [] => false

/-- Removal of one leading `"www."` only — the normalisation the spec
describes (strip scheme and the leading `www.`, leave the rest intact). -/
def stripLeadingWWW : List Char → List Char
  | 'w' :: 'w' :: 'w' :: '.' :: rest => rest
  | l => l

/-- Characters legal in a URL scheme, as in `urllib.parse`. -/
def isSchemeChar (c : Char) : Bool :=
  c.isAlpha || c.isDigit || c = '+' || c = '-' || c = '.'

/-- `urllib.parse` scheme splitting: if the text before the first `:` is a
nonempty run of scheme characters starting with a letter, drop it together
with the colon; otherwise leave the URL unchanged. -/
def splitSchemeRest (l : List Char) : List Char :=
  let pre := l.takeWhile (fun c => !(c == ':'))
  if pre.length < l.length ∧ 0 < pre.length ∧
     (pre.headD ' ').isAlpha = true ∧ pre.all isSchemeChar = true then
    l.drop (pre.length + 1)
  else l

/-- `urlparse(url).netloc`: present only after `//`, and runs to the first
`/`, `?` or `#`. -/
def netlocOf (url : String) : String :=
  match splitSchemeRest url.data with
  | '/' :: '/' :: rest =>
    String.mk (rest.takeWhile (fun c => !(c == '/' || c == '?' || c == '#')))
  | _ => ""

/-- `get_domain`: `urlparse(url).netloc.lower().replace("www.", "")`. -/
def get_domain (url : String) : String :=
  String.mk (replAllWWW ((netlocOf url).data.map Char.toLower))

/-- `BLACKLIST_DOMAINS` from the source (a set; only membership is used). -/
def BLACKLIST_DOMAINS : List String :=
  ["lenovo.com", "daraz.com.bd", "reddit", "mobiledokan.com", "oracle.com",
   "salesforce.com", "microsoft.com", "adobe.com", "sap.com", "workday.com",
   "servicenow.com", "tableau.com", "zoom.us", "webex.com",
   "gotomeeting.com"]

/-- `is_blacklisted`: some blacklist entry is a substring of the domain. -/
def is_blacklisted (url : String) : Bool :=
  BLACKLIST_DOMAINS.any (fun b => containsSub b.data (get_domain url).data)

/-! ### `filter_urls` and the spec-side deduplication -/

/-- Loop of `filter_urls`, carrying the `seen_domains` set. -/
def filterUrlsGo : List String → List String → List String
  | [], _ => []
  | u :: rest, seen =>
    let domain := get_domain u
    if !(seen.contains domain) && !(is_blacklisted u) then
      u :: filterUrlsGo rest (domain :: seen)
    else filterUrlsGo rest seen

/-- `filter_urls` from the source. -/
def filter_urls (urls : List String) : List String := filterUrlsGo urls []

/-- Spec-side deduplication, following the words of the claim only: keep
exactly the first URL seen for each normalised domain, in order, with no
blacklist involved. -/
def firstPerDomainGo : List String → List String → List String
  | [], _ => []
  | u :: rest, seen =>
    let domain := get_domain u
    if seen.contains domain then firstPerDomainGo rest seen
    else u :: firstPerDomainGo rest (domain :: seen)

def firstPerDomainSpec (urls : List String) : List String :=
  firstPerDomainGo urls []

/-! ### Query Resolver (`scrape_searxng_local`) -/

/-- One raw entry of the SearXNG JSON `results` array; each field may be
absent (`result.get(...)`). -/
structure RawResult where
  url : Option String
  title : Option String
  content : Option String
deriving DecidableEq, Repr

/-- The record the resolver appends: `{"title": ..., "href": ..., "body": ...}`. -/
structure SearchRecord where
  title : String
  href : String
  body : String
deriving DecidableEq, Repr

/-- Python exceptions relevant to the embedded boundaries. -/
inductive PyErr
  | requestException
  | httpError
  | valueError
deriving DecidableEq, Repr

/-- What the search backend interaction can amount to: connection failure,
HTTP error status, a non-JSON body, or a parsed body whose `results` key is
absent (`none`) or holds a list. -/
inductive SearxngResponse
  | connError
  | httpStatusError
  | badJson
  | ok (results : Option (List RawResult))
deriving DecidableEq, Repr

/-- The result loop of `scrape_searxng_local`: cap at `maxr`, skip entries
with missing/empty url, blacklisted domains and already-seen domains. -/
def srxLoop (maxr : Nat) : List RawResult → List SearchRecord → List String → List SearchRecord
  | [], acc, _ => acc
  | r :: rest, acc, seen =>
    if maxr ≤ acc.length then acc
    else
      let result_url := r.url.getD ""
      if result_url = "" then srxLoop maxr rest acc seen
      else if is_blacklisted result_url then srxLoop maxr rest acc seen
      else
        let domain := get_domain result_url
        if seen.contains domain then srxLoop maxr rest acc seen
        else
          srxLoop maxr rest
            (acc ++ [{ title := r.title.getD "No title available",
                       href := result_url,
                       body := r.content.getD "No description available" }])
            (domain :: seen)

/-- The `try:` block of `scrape_searxng_local`: the posts/`raise_for_status`/
`.json()` steps may raise, the rest is the pure loop. An absent or empty
`results` key returns `[]`. -/
def scrape_searxng_local_try (resp : SearxngResponse) (maxr : Nat) :
    Except PyErr (List SearchRecord) :=
  match resp with
  | .connError => .error .requestException
  | .httpStatusError => .error .httpError
  | .badJson => .error .valueError
  | .ok none => .ok []
  | .ok (some []) => .ok []
  | .ok (some rs) => .ok (srxLoop maxr rs [] [])

/-- `scrape_searxng_local`: every exception raised in the `try` block is
caught by the source's `except` clauses, which all return `[]`. -/
def scrape_searxng_local (resp : SearxngResponse) (maxr : Nat) : List SearchRecord :=
  match scrape_searxng_local_try resp maxr with
  | .error _ => []
  | .ok v => v

/-! ### Soup: BeautifulSoup parse trees as query-answer records

A static HTML fixture is modelled by the answers the source's queries would
receive from its parse tree: for each CSS selector / id / tag query the code
performs, the record stores the text of the matched node(s).  An absent
association means the query matches nothing.  Parsing is deterministic, so
this record plays the role of the HTML string itself. -/

structure Soup where
  /-- text of `soup.find("title")`, if present -/
  titleTag : Option String
  /-- text of `soup.find("h1")`, if present -/
  firstH1 : Option String
  /-- text of `soup.select_one("p")`, if present -/
  firstP : Option String
  /-- texts of `soup.select("h2")` -/
  h2Texts : List String
  /-- the `content` attribute of `meta[name=description]`, if the tag exists
  (the attribute defaults to the empty string) -/
  metaDescription : Option String
  /-- text of the first match of each CSS selector (`soup.select_one`) -/
  selOne : List (String × String)
  /-- texts of all matches of each CSS selector (`soup.select`) -/
  selAll : List (String × List String)
  /-- text of `soup.find(id=...)` for each id -/
  byId : List (String × String)
  /-- for each spec-table id, the rows that carry both a `th` and a `td` -/
  specTables : List (String × List (String × String))
  /-- texts of `soup.select("p, li, div.description, div.summary, .info,
  .details")` after the nav/footer/sidebar elements have been decomposed -/
  decomposedParagraphTexts : List String
  /-- for the first `h1, h2, h3` headings: heading text together with the
  texts of the following sibling `p`/`div`/`ul`/`ol` elements before the
  next heading -/
  headingBlocks : List (String × List String)
  /-- for each table, the cell texts of each row (`td`/`th`) -/
  tableRowCells : List (List (List String))
deriving DecidableEq, Repr

/-- Lookup in a query-answer association list. -/
def lookupIn {α : Type} (l : List (String × α)) (k : String) : Option α :=
  (l.find? (fun p => p.1 == k)).map (fun p => p.2)

/-- `for selector in sels: x = soup.select_one(selector); if x: ...; break`:
the first selector that matches at all wins. -/
def selectFirst (so : List (String × String)) : List String → Option String
  | [] => none
  | s :: rest =>
    match lookupIn so s with
    | some t => some t
    | none => selectFirst so rest

/-- `for selector in sels: xs = soup.select(selector); if xs: ...; break`:
the first selector with a nonempty match list wins. -/
def selectAllFirst (sa : List (String × List String)) : List String → List String
  | [] => []
  | s :: rest =>
    match lookupIn sa s with
    | some hits => if hits.isEmpty then selectAllFirst sa rest else hits
    | none => selectAllFirst sa rest

/-- The heterogeneous result dictionaries of the extractors, one constructor
per site type.  A Python `dict.get` on a key the variant does not carry
returns `None`; the projections below reproduce that. -/
inductive ExtractResult
  | amazon (url domain ty title price rating : String)
      (key_features : List String) (description : String)
      (specs : List (String × String))
  | forum (url domain ty title question : String)
      (top_answers : List String) (tags : List String)
  | wiki (url domain ty title summary : String) (key_sections : List String)
  | video (url domain ty title description duration views : String)
  | generic (url domain ty title main_content summary : String)
      (key_sections : List (String × String))
      (important_details : List String)
deriving DecidableEq, Repr

/-- `result.get("main_content")`: only the generic variant carries the key. -/
def ExtractResult.mainContentGet : ExtractResult → Option String
  | .generic _ _ _ _ mc _ _ _ => some mc
  | _ => none

/-- Truthiness of `result.get("key_sections")`: the generic and wiki variants
carry the key (a list, truthy when nonempty); elsewhere `.get` yields `None`. -/
def ExtractResult.keySectionsTruthy : ExtractResult → Bool
  | .generic _ _ _ _ _ _ ks _ => !ks.isEmpty
  | .wiki _ _ _ _ _ ks => !ks.isEmpty
  | _ => false

/-- The direct-stage success test of the Tiered Fetcher:
`smart and (smart.get("main_content") or smart.get("key_sections"))`
(the dict itself is always truthy). -/
def direct_success_test (r : ExtractResult) : Bool :=
  (match r.mainContentGet with
   | some s => !(s == "")
   | none => false) || r.keySectionsTruthy

/-! ### Site-specific extractors -/

/-- `important_specs` from `extract_amazon_smart`. -/
def importantSpecs : List String :=
  ["Brand", "Model", "Color", "Size", "Weight", "Material", "Dimensions"]

/-- Python dict assignment `d[k] = v`: replace in place or append. -/
def dictSet (l : List (String × String)) (k v : String) : List (String × String) :=
  if (l.find? (fun p => p.1 == k)).isSome then
    l.map (fun p => if p.1 == k then (k, v) else p)
  else l ++ [(k, v)]

/-- The spec-table loop of `extract_amazon_smart`: keep rows whose `th` text
mentions one of the important spec names (case-insensitively). -/
def amazonSpecsGo : List (String × String) → List (String × String) → List (String × String)
  | [], acc => acc
  | (th, td) :: rest, acc =>
    let spec_name := clean_text th
    if importantSpecs.any
        (fun i => containsSub (pyLower i).data (pyLower spec_name).data) then
      amazonSpecsGo rest (dictSet acc spec_name (clean_text td))
    else amazonSpecsGo rest acc

/-- `extract_amazon_smart`.  Note that the returned dict has no
`main_content` and no `key_sections` key. -/
def extract_amazon_smart (soup : Soup) (url : String) : ExtractResult :=
  let title :=
    match lookupIn soup.byId "productTitle" with
    | some t => clean_text t
    | none => ""
  let price :=
    match selectFirst soup.selOne
        [".a-price-whole", ".a-price .a-offscreen",
         "#priceblock_dealprice", "#priceblock_ourprice"] with
    | some p => clean_text p
    | none => ""
  let rating :=
    match lookupIn soup.selOne
        "[data-hook=\x27average-star-rating\x27] .a-icon-alt" with
    | some r => clean_text r
    | none => ""
  let bullets := (lookupIn soup.selAll "#feature-bullets ul li span").getD []
  let key_features :=
    if bullets.isEmpty then []
    else ((bullets.take 5).map clean_text).filter (fun t => !(t == ""))
  let description :=
    match lookupIn soup.byId "productDescription" with
    | some d => pyTruncate 500 (clean_text d)
    | none => ""
  let specs1 :=
    amazonSpecsGo ((lookupIn soup.specTables "productDetails_techSpec_section_1").getD []) []
  let specs :=
    amazonSpecsGo ((lookupIn soup.specTables "productDetails_detailBullets_sections1").getD []) specs1
  .amazon url "amazon" "product" title price rating key_features description specs

/-- `extract_forum_smart`. -/
def extract_forum_smart (soup : Soup) (url : String) : ExtractResult :=
  let title :=
    match selectFirst soup.selOne
        ["h1", ".title", "[data-testid=\x27post-content\x27] h1"] with
    | some t => clean_text t
    | none => ""
  let question :=
    match selectFirst soup.selOne
        [".post-text", "[data-testid=\x27post-content\x27] div", ".usertext-body"] with
    | some c => pyTruncate 800 (clean_text c)
    | none => ""
  let answers :=
    selectAllFirst soup.selAll
      [".answer .post-text", ".comment-body", ".reply .usertext-body"]
  let top_answers := (answers.take 2).map (fun a => pyTruncate 400 (clean_text a))
  .forum url (get_domain url) "forum" title question top_answers []

/-- The `h2` filter of `extract_wiki_smart`. -/
def wikiSectionsGo : List String → List String
  | [] => []
  | s :: rest =>
    let t := clean_text s
    if !(t == "") &&
       !(["reference", "external", "see also"].any
          (fun k => containsSub k.data (pyLower t).data)) then
      t :: wikiSectionsGo rest
    else wikiSectionsGo rest

/-- `extract_wiki_smart`. -/
def extract_wiki_smart (soup : Soup) (url : String) : ExtractResult :=
  let title :=
    match soup.firstH1 with
    | some t => clean_text t
    | none => ""
  let summary :=
    match soup.firstP with
    | some p => pyTruncate 600 (clean_text p)
    | none => ""
  let key_sections := wikiSectionsGo (soup.h2Texts.take 3)
  .wiki url (get_domain url) "encyclopedia" title summary key_sections

/-- `extract_video_smart`. -/
def extract_video_smart (soup : Soup) (url : String) : ExtractResult :=
  let title :=
    match selectFirst soup.selOne ["h1", ".title", "[name=\x27title\x27]"] with
    | some t => clean_text t
    | none => ""
  let description :=
    match selectFirst soup.selOne
        [".description", "[name=\x27description\x27]", ".content"] with
    | some d => pyTruncate 300 (clean_text d)
    | none => ""
  .video url (get_domain url) "video" title description "" ""

/-! ### `extract_generic_smart` -/

/-- The ordered content selectors of `extract_generic_smart`. -/
def contentSelectors : List String :=
  ["article", "main", ".content", ".post-content", ".entry-content",
   ".article-content", "#content", ".main-content", ".page-content",
   ".site-content"]

/-- The selector loop: the first selector whose match has substantial
(cleaned length over 100) content supplies `main_content`, truncated. -/
def genericMainGo (so : List (String × String)) : List String → Option String
  | [] => none
  | s :: rest =>
    match lookupIn so s with
    | some raw =>
      let t := clean_text raw
      if 100 < t.data.length then some (pyTruncate 1500 t)
      else genericMainGo so rest
    | none => genericMainGo so rest

/-- The skip words of the paragraph fallback in `extract_generic_smart`. -/
def fallbackSkipWords : List String :=
  ["cookie", "privacy", "terms", "subscribe", "newsletter", "login",
   "register"]

/-- The paragraph fallback: cleaned texts longer than 20 characters that do
not mention a skip word. -/
def genericFallbackTexts (paragraphs : List String) : List String :=
  (paragraphs.map clean_text).filter
    (fun t => 20 < t.data.length &&
      !(fallbackSkipWords.any (fun k => containsSub k.data (pyLower t).data)))

/-- The heading walk: for each of the first headings, collect up to three
following-sibling texts longer than 20 characters and join them. -/
def genericSectionsGo : List (String × List String) → List (String × String)
  | [] => []
  | (h, sibs) :: rest =>
    let ht := clean_text h
    if !(ht == "") && 3 < ht.data.length then
      let content := ((sibs.map clean_text).filter (fun t => 20 < t.data.length)).take 3
      if content.isEmpty then genericSectionsGo rest
      else (ht, pyTruncate 300 (pyJoinSpace content)) :: genericSectionsGo rest
    else genericSectionsGo rest

/-- One detail regex of `extract_generic_smart`, hand-compiled: the label the
source derives from the pattern text, the keyword alternatives in the order
the alternation tries them (optional suffixes expanded longest first), and
whether the capture class is the broad `[a-zA-Z0-9\s,.-]+` of the last
pattern rather than the numeric `[0-9,]+(\.[0-9]+)?`. -/
structure DetailPattern where
  label : String
  alts : List String
  broadCapture : Bool
deriving DecidableEq, Repr

/-- The six detail patterns, in source order.  The third alternative of the
first pattern is the mis-encoded rupee sign exactly as it appears in the
source file. -/
def detailPatterns : List DetailPattern :=
  [⟨"price", ["price", "cost", "‚Çπ", "rs.", "rs", "usd", "$"], false⟩,
   ⟨"mileage", ["mileage", "efficiency", "mpg", "kmpl"], false⟩,
   ⟨"power", ["power", "hp", "bhp", "kw"], false⟩,
   ⟨"engine", ["engine", "displacement", "cc"], false⟩,
   ⟨"weight", ["weight", "mass", "kg", "pounds"], false⟩,
   ⟨"features?",
    ["features", "feature", "specifications", "specification", "specs",
     "spec"], true⟩]

/-- Capture `[0-9,]+(?:\.[0-9]+)?` at the head of `l`. -/
def captureNumeric (l : List Char) : Option String :=
  let a := l.takeWhile (fun c => c.isDigit || c == ',')
  if a.isEmpty then none
  else
    match l.drop a.length with
    | '.' :: r2 =>
      let d := r2.takeWhile Char.isDigit
      if d.isEmpty then some (String.mk a)
      else some (String.mk (a ++ '.' :: d))
    | _ => some (String.mk a)

/-- Capture `[a-zA-Z0-9\s,.-]+` at the head of `l`. -/
def captureBroad (l : List Char) : Option String :=
  let a := l.takeWhile
    (fun c => c.isAlphanum || isPySpace c || c == ',' || c == '.' || c == '-')
  if a.isEmpty then none else some (String.mk a)

/-- Try one match position: alternatives in order; after a keyword, skip
`\s*:?\s*` and attempt the capture; on capture failure backtrack to the next
alternative (regex semantics). -/
def tryDetailAlts (broad : Bool) : List String → List Char → Option String
  | [], _ => none
  | alt :: rest, l =>
    if matchLowerPrefix alt.data l then
      let after := (l.drop alt.data.length).dropWhile isPySpace
      let after2 :=
        match after with
        | ':' :: r => r.dropWhile isPySpace
        | _ => after
      match (if broad then captureBroad after2 else captureNumeric after2) with
      | some cap => some cap
      | none => tryDetailAlts broad rest l
    else tryDetailAlts broad rest l

/-- `re.findall(pattern, text, re.IGNORECASE)` restricted to the first
match: scan positions left to right. -/
def findDetailGo (p : DetailPattern) : List Char → Option String
  | [] => none
  | c :: cs =>
    match tryDetailAlts p.broadCapture p.alts (c :: cs) with
    | some cap => some cap
    | none => findDetailGo p cs

/-- The detail loop: for each pattern with a match, record
`"<label>: <first capture>"`. -/
def genericDetails (full_text : String) : List String :=
  detailPatterns.filterMap
    (fun p => (findDetailGo p full_text.data).map
      (fun cap => p.label ++ ": " ++ cap))

/-- The table fallback: from the first two tables, rows of at least two
cells whose joined text is longer than 10 characters. -/
def genericTableData (tables : List (List (List String))) : List String :=
  ((tables.take 2).map (fun rows =>
    (rows.take 5).filterMap (fun cells =>
      if 2 ≤ cells.length then
        let row_text := pyJoinWith " | " (cells.map clean_text)
        if 10 < row_text.data.length then some row_text else none
      else none))).flatten

/-- `extract_generic_smart`. -/
def extract_generic_smart (soup : Soup) (url : String) : ExtractResult :=
  let title :=
    match soup.titleTag with
    | some t => clean_text t
    | none => ""
  let summary :=
    match soup.metaDescription with
    | some c => clean_text c
    | none => ""
  let main_content :=
    match genericMainGo soup.selOne contentSelectors with
    | some mc => mc
    | none =>
      let texts := genericFallbackTexts soup.decomposedParagraphTexts
      if texts.isEmpty then "" else pyTruncate 1500 (pyJoinSpace texts)
  let key_sections := genericSectionsGo (soup.headingBlocks.take 6)
  let full_text :=
    main_content ++ " " ++ pyJoinSpace (key_sections.map (fun s => s.2))
  let details := genericDetails full_text
  let important_details :=
    if main_content.data.length < 200 then
      let table_data := genericTableData soup.tableRowCells
      if table_data.isEmpty then details else details ++ table_data.take 10
    else details
  .generic url (get_domain url) "generic" title main_content summary
    key_sections important_details

/-! ### `extract_smart_content` (routing by URL substring) -/

def forumDomains : List String := ["reddit.com", "stackoverflow.com", "github.com"]

def wikiDomains : List String := ["wikipedia.org", "britannica.com"]

def videoDomains : List String := ["youtube.com", "vimeo.com"]

/-- `extract_smart_content`: route by URL substring.  (The preliminary
generic dict the source builds before routing is discarded by every
branch, so it is omitted.) -/
def extract_smart_content (soup : Soup) (url : String) : ExtractResult :=
  if strContains "amazon." url then extract_amazon_smart soup url
  else if forumDomains.any (fun d => strContains d url) then
    extract_forum_smart soup url
  else if wikiDomains.any (fun d => strContains d url) then
    extract_wiki_smart soup url
  else if videoDomains.any (fun d => strContains d url) then
    extract_video_smart soup url
  else extract_generic_smart soup url

/-! ### Tiered Fetcher (`try_scrape_smart_with_better_timeout`) -/

/-- A successful scrape: `{"url": ..., "method": ..., "content": ...}`. -/
structure ScrapeResult where
  url : String
  method : String
  content : ExtractResult
deriving DecidableEq, Repr

/-- The value of `stop_event.is_set()` at each of the five places the fetch
samples it: before it starts, before the direct HTTP request, after the HTTP
response, before the trafilatura fallback, and after the fallback download.
(The event is set-once, so along a real execution these are monotone; none
of the theorems needs that.) -/
structure StopTrace where
  s1 : Bool
  s2 : Bool
  s3 : Bool
  s4 : Bool
  s5 : Bool
deriving DecidableEq, Repr

/-- `requests.get` outcome: an exception, or a response with `ok` status and
a body (modelled by its parse tree). -/
structure HttpResp where
  ok : Bool
  text : Soup
deriving DecidableEq, Repr

/-- Everything the environment decides for one fetch: the `requests.get`
outcome, the elapsed wall-clock time when the fallback budget is computed,
and the `trafilatura.fetch_url` outcome (`none` = download failed). -/
structure FetchEnv where
  response : Except PyErr HttpResp
  elapsedAtFallback : Int
  downloaded : Except PyErr (Option Soup)
deriving Repr

/-- The `try:` body of `try_scrape_smart_with_better_timeout`; an `.error`
is an exception travelling to the surrounding `except Exception`. -/
def fetchBody (url : String) (timeout_seconds : Int) (stop : Option StopTrace)
    (env : FetchEnv) : Except PyErr (Option ScrapeResult) :=
  if (stop.map (fun t => t.s2)).getD false then .ok none
  else
    match env.response with
    | .error e => .error e
    | .ok resp =>
      if (stop.map (fun t => t.s3)).getD false then .ok none
      else
        let direct : Option ScrapeResult :=
          if resp.ok then
            let smart := extract_smart_content resp.text url
            if direct_success_test smart then
              some { url := url, method := "requests+smart", content := smart }
            else none
          else none
        match direct with
        | some r => .ok (some r)
        | none =>
          if (stop.map (fun t => t.s4)).getD false then .ok none
          else if 2 < timeout_seconds - env.elapsedAtFallback then
            match env.downloaded with
            | .error e => .error e
            | .ok dl =>
              if (stop.map (fun t => t.s5)).getD false then .ok none
              else
                match dl with
                | none => .ok none
                | some d =>
                  .ok (some { url := url, method := "trafilatura+smart",
                              content := extract_smart_content d url })
          else .ok none

/-- `try_scrape_smart_with_better_timeout`: bail out if the stop event is
already set, then run the body with its catch-all `except Exception`,
which converts any exception into the final `return None`. -/
def try_scrape_smart_with_better_timeout (url : String) (timeout_seconds : Int)
    (stop : Option StopTrace) (env : FetchEnv) : Option ScrapeResult :=
  if (stop.map (fun t => t.s1)).getD false then none
  else
    match fetchBody url timeout_seconds stop env with
    | .error _ => none
    | .ok v => v

/-! ### Bounded Parallel Dispatcher (`scrape_batch_parallel`)

The thread pool and the 0.25-second poll are abstracted into the sequence of
future completions the poll loop observes before the batch deadline: each
element is the value a completed `fut.result()` returns (the fetch absorbs
its own exceptions, so this is always an `Option ScrapeResult`).  Quantifying
over all such sequences covers every completion order and every point at
which the deadline can cut the loop short. -/

/-- The poll loop: successes are appended one at a time, and the loop
returns the moment the success count reaches `max_sites_needed` (the
source sets the stop event and shuts the executor down at that point). -/
def batchLoop : List (Option ScrapeResult) → List ScrapeResult → Nat → List ScrapeResult
  | [], acc, _ => acc
  | none :: rest, acc, quota => batchLoop rest acc quota
  | some r :: rest, acc, quota =>
    let acc2 := acc ++ [r]
    if quota ≤ acc2.length then acc2 else batchLoop rest acc2 quota

/-- `scrape_batch_parallel` over the observed completions. -/
def scrape_batch_parallel (completions : List (Option ScrapeResult))
    (max_sites_needed : Nat) : List ScrapeResult :=
  batchLoop completions [] max_sites_needed

/-- `scrape_batch_playwright`: its `as_completed` loop appends successes and
breaks once `max_sites_needed` are collected — observably the same loop. -/
def scrape_batch_playwright (completions : List (Option ScrapeResult))
    (max_sites_needed : Nat) : List ScrapeResult :=
  batchLoop completions [] max_sites_needed

/-! ### Phase Sequencer (`scrape_multiple_sites_truly_parallel`, active
second definition)

Durations of the search and of each batch are environment data; the run
record carries the total elapsed time (the source computes it only for its
final print) and the list of executed phases, for the temporal claims. -/

/-- Environment of one sequencer run: the search backend response, the
completions each of the three possible batch calls would observe, whether
Playwright is importable, and the wall-clock durations. -/
structure SeqEnv where
  backend : SearxngResponse
  batch1Completions : List (Option ScrapeResult)
  batch2Completions : List (Option ScrapeResult)
  playwrightCompletions : List (Option ScrapeResult)
  playwrightAvailable : Bool
  searchDuration : Nat
  batch1Duration : Nat
  batch2Duration : Nat
  playwrightDuration : Nat
deriving Repr

/-- Outcome of a sequencer run: the returned value (`none` = Python `None`),
the total elapsed time, and which phases dispatched a batch. -/
structure SeqRun where
  result : Option (List ScrapeResult)
  elapsed : Nat
  phases : List Nat
deriving DecidableEq, Repr

/-- `scrape_multiple_sites_truly_parallel` (the active definition):
phase 1 on the first 8 filtered URLs, phase 2 on URLs 8..13, phase 3 with
Playwright on not-yet-scraped domains; early return as soon as `max_sites`
successes have accumulated.  `max_total_time` is a parameter of the source
function and is reproduced here. -/
def scrape_multiple_sites_truly_parallel (env : SeqEnv)
    (max_sites max_total_time max_search_results : Nat) : SeqRun :=
  let results := scrape_searxng_local env.backend max_search_results
  if results.isEmpty then
    { result := none, elapsed := env.searchDuration, phases := [] }
  else
    let urls := results.map (fun r => r.href)
    let filtered_urls := filter_urls urls
    if filtered_urls.isEmpty then
      { result := none, elapsed := env.searchDuration, phases := [] }
    else
      -- PHASE 1: first 8 sites
      let batch_1_urls := filtered_urls.take 8
      let s1 :=
        if batch_1_urls.isEmpty then []
        else scrape_batch_parallel env.batch1Completions max_sites
      let e1 := if batch_1_urls.isEmpty then 0 else env.batch1Duration
      let p1 : List Nat := if batch_1_urls.isEmpty then [] else [1]
      if !batch_1_urls.isEmpty ∧ max_sites ≤ s1.length then
        { result := some (s1.take max_sites),
          elapsed := env.searchDuration + e1, phases := p1 }
      else
        -- PHASE 2: next 5 sites
        let run2 := s1.length < max_sites ∧ 8 < filtered_urls.length
        let batch_2_urls := (filtered_urls.drop 8).take 5
        let s2 :=
          if run2 ∧ !batch_2_urls.isEmpty then
            s1 ++ scrape_batch_parallel env.batch2Completions (max_sites - s1.length)
          else s1
        let e2 := if run2 ∧ !batch_2_urls.isEmpty then env.batch2Duration else 0
        let p2 : List Nat := if run2 ∧ !batch_2_urls.isEmpty then [2] else []
        if (run2 ∧ !batch_2_urls.isEmpty) ∧ max_sites ≤ s2.length then
          { result := some (s2.take max_sites),
            elapsed := env.searchDuration + e1 + e2, phases := p1 ++ p2 }
        else
          -- PHASE 3: Playwright fallback
          let run3 := s2.length < max_sites ∧ env.playwrightAvailable = true
          let successful_domains := s2.map (fun r => get_domain r.url)
          let playwright_urls :=
            ((filtered_urls.take 15).filter
              (fun u => !(successful_domains.contains (get_domain u)))).take 5
          let s3 :=
            if run3 ∧ !playwright_urls.isEmpty then
              s2 ++ scrape_batch_playwright env.playwrightCompletions
                      (max_sites - s2.length)
            else s2
          let e3 := if run3 ∧ !playwright_urls.isEmpty then env.playwrightDuration else 0
          let p3 : List Nat := if run3 ∧ !playwright_urls.isEmpty then [3] else []
          { result := if s3.isEmpty then none else some (s3.take max_sites),
            elapsed := env.searchDuration + e1 + e2 + e3,
            phases := p1 ++ p2 ++ p3 }

/-! ### Helper lemmas -/

/-- If the accumulator is strictly below the quota, the poll loop never
returns more than the quota. -/
theorem batchLoop_length_le (completions : List (Option ScrapeResult)) :
    ∀ (acc : List ScrapeResult) (quota : Nat), acc.length < quota →
    (batchLoop completions acc quota).length ≤ quota := by
  induction completions with
  | nil => intro acc quota h; simpa [batchLoop] using h.le
  | cons o rest ih =>
    intro acc quota h
    match o with
    | none => simpa [batchLoop] using ih acc quota h
    | some r =>
      by_cases hq : quota ≤ (acc ++ [r]).length
      · simp only [batchLoop, if_pos hq]
        simp only [List.length_append, List.length_singleton]
        omega
      · simp only [batchLoop, if_neg hq]
        exact ih (acc ++ [r]) quota (by simp at hq ⊢; omega)

/-- Everything the poll loop returns was in the accumulator or arrived as a
successful completion. -/
theorem batchLoop_mem (completions : List (Option ScrapeResult)) :
    ∀ (acc : List ScrapeResult) (quota : Nat) (r : ScrapeResult),
    r ∈ batchLoop completions acc quota → r ∈ acc ∨ some r ∈ completions := by
  induction completions with
  | nil => intro acc quota r h; exact Or.inl (by simpa [batchLoop] using h)
  | cons o rest ih =>
    intro acc quota r h
    match o with
    | none =>
      rcases ih acc quota r (by simpa [batchLoop] using h) with h1 | h1
      · exact Or.inl h1
      · exact Or.inr (List.mem_cons_of_mem _ h1)
    | some s =>
      by_cases hq : quota ≤ (acc ++ [s]).length
      · simp only [batchLoop, if_pos hq] at h
        rcases List.mem_append.mp h with h1 | h1
        · exact Or.inl h1
        · simp at h1
          exact Or.inr (by simp [h1])
      · simp only [batchLoop, if_neg hq] at h
        rcases ih (acc ++ [s]) quota r h with h1 | h1
        · rcases List.mem_append.mp h1 with h2 | h2
          · exact Or.inl h2
          · simp at h2
            exact Or.inr (by simp [h2])
        · exact Or.inr (List.mem_cons_of_mem _ h1)

/-- The poll loop appends at most one element per successful completion. -/
theorem batchLoop_count (completions : List (Option ScrapeResult)) :
    ∀ (acc : List ScrapeResult) (quota : Nat),
    (batchLoop completions acc quota).length ≤
      acc.length + completions.countP (fun o => o.isSome) := by
  induction completions with
  | nil => intro acc quota; simp [batchLoop]
  | cons o rest ih =>
    intro acc quota
    match o with
    | none =>
      simpa [batchLoop, List.countP_cons] using ih acc quota
    | some s =>
      have hcnt : List.countP (fun o => Option.isSome o) (some s :: rest)
          = List.countP (fun o => Option.isSome o) rest + 1 := by
        simp [List.countP_cons]
      rw [hcnt]
      by_cases hq : quota ≤ (acc ++ [s]).length
      · rw [show batchLoop (some s :: rest) acc quota = acc ++ [s] by
          simp only [batchLoop, if_pos hq]]
        simp only [List.length_append, List.length_singleton]
        omega
      · rw [show batchLoop (some s :: rest) acc quota
            = batchLoop rest (acc ++ [s]) quota by
          simp only [batchLoop, if_neg hq]]
        have h2 := ih (acc ++ [s]) quota
        simp only [List.length_append, List.length_singleton] at h2
        omega

/-- `replace("www.", "")` is the identity on strings without `"www."`. -/
theorem replAllWWW_eq_self : ∀ (l : List Char), hasWWW l = false → replAllWWW l = l := by
  intro l
  induction l using replAllWWW.induct with
  | case1 rest => intro h; rw [hasWWW.eq_1] at h; cases h
  | case2 c cs hne ih =>
    intro h
    rw [hasWWW.eq_2 c cs hne] at h
    rw [replAllWWW.eq_2 c cs hne, ih h]
  | case3 => intro _; rfl

/-- On a string whose only possible `"www."` occurrence is a leading one,
`replace("www.", "")` agrees with stripping the leading `"www."`. -/
theorem replAll_eq_stripLeading : ∀ (l : List Char),
    hasWWW (stripLeadingWWW l) = false → replAllWWW l = stripLeadingWWW l := by
  intro l
  rw [stripLeadingWWW.eq_def]
  split
  · intro h
    rw [replAllWWW.eq_1]
    exact replAllWWW_eq_self _ h
  · intro h
    exact replAllWWW_eq_self _ h

/-- Invariant of the resolver loop: the accumulator stays within the cap,
holds only nonempty non-blacklisted hrefs with pairwise distinct domains,
and every accumulated domain is in `seen`. -/
theorem srxLoop_inv (maxr : Nat) : ∀ (rs : List RawResult) (acc : List SearchRecord) (seen : List String),
    acc.length ≤ maxr →
    (∀ r ∈ acc, r.href ≠ "" ∧ is_blacklisted r.href = false) →
    (acc.map (fun r => get_domain r.href)).Pairwise (fun a b => a ≠ b) →
    (∀ r ∈ acc, seen.contains (get_domain r.href) = true) →
    (srxLoop maxr rs acc seen).length ≤ maxr ∧
    (∀ r ∈ srxLoop maxr rs acc seen, r.href ≠ "" ∧ is_blacklisted r.href = false) ∧
    ((srxLoop maxr rs acc seen).map (fun r => get_domain r.href)).Pairwise (fun a b => a ≠ b) := by
  intro rs
  induction rs with
  | nil =>
    intro acc seen h1 h2 h3 _
    exact ⟨by simpa [srxLoop] using h1, by simpa [srxLoop] using h2,
      by simpa [srxLoop] using h3⟩
  | cons r rest ih =>
    intro acc seen h1 h2 h3 h4
    by_cases hb : maxr ≤ acc.length
    · rw [show srxLoop maxr (r :: rest) acc seen = acc by
        simp only [srxLoop, if_pos hb]]
      exact ⟨h1, h2, h3⟩
    · by_cases hu : r.url.getD "" = ""
      · rw [show srxLoop maxr (r :: rest) acc seen = srxLoop maxr rest acc seen by
          simp only [srxLoop, if_neg hb, if_pos hu]]
        exact ih acc seen h1 h2 h3 h4
      · by_cases hbl : is_blacklisted (r.url.getD "") = true
        · rw [show srxLoop maxr (r :: rest) acc seen = srxLoop maxr rest acc seen by
            simp only [srxLoop, if_neg hb, if_neg hu, if_pos hbl]]
          exact ih acc seen h1 h2 h3 h4
        · by_cases hseen : seen.contains (get_domain (r.url.getD "")) = true
          · rw [show srxLoop maxr (r :: rest) acc seen = srxLoop maxr rest acc seen by
              simp only [srxLoop, if_neg hb, if_neg hu, if_neg hbl, if_pos hseen]]
            exact ih acc seen h1 h2 h3 h4
          · rw [show srxLoop maxr (r :: rest) acc seen
                = srxLoop maxr rest
                    (acc ++ [{ title := r.title.getD "No title available",
                               href := r.url.getD "",
                               body := r.content.getD "No description available" }])
                    (get_domain (r.url.getD "") :: seen) by
              simp only [srxLoop, if_neg hb, if_neg hu, if_neg hbl, if_neg hseen]]
            apply ih
            · simp only [List.length_append, List.length_singleton]
              omega
            · intro x hx
              rcases List.mem_append.mp hx with h | h
              · exact h2 x h
              · simp only [List.mem_singleton] at h
                subst h
                exact ⟨hu, Bool.not_eq_true _ ▸ eq_false_of_ne_true hbl⟩
            · rw [List.map_append]
              apply List.pairwise_append.mpr
              refine ⟨h3, by simp, ?_⟩
              intro a ha b hb2
              simp only [List.map_cons, List.map_nil, List.mem_singleton] at hb2
              subst hb2
              rcases List.mem_map.mp ha with ⟨x, hx, rfl⟩
              intro heq
              exact hseen (heq ▸ h4 x hx)
            · intro x hx
              rcases List.mem_append.mp hx with h | h
              · have hx2 := h4 x h
                simp only [List.contains_cons, Bool.or_eq_true]
                exact Or.inr hx2
              · simp only [List.mem_singleton] at h
                subst h
                simp [List.contains_cons]

/-! ### Sample data used by witnesses and counterexamples -/

/-- A concrete extraction result (generic variant). -/
def sampleContent : ExtractResult :=
  .generic "http://a.com/x" "a.com" "generic" "" "hello world" "" [] []

/-- A concrete successful scrape. -/
def sampleResult : ScrapeResult :=
  { url := "http://a.com/x", method := "requests+smart", content := sampleContent }

/-- A fetch environment whose HTTP request raises. -/
def errFetchEnv : FetchEnv :=
  { response := .error .requestException, elapsedAtFallback := 0,
    downloaded := .ok none }

/-! ### Claims -/

/-- Claim C10: for every backend response and every `max_results`, the list
returned by `scrape_searxng_local` has at most `max_results` entries, every
entry's url was present and nonempty, the normalised domains of the entries
are pairwise distinct, and no entry's domain contains a blacklisted
substring. -/
theorem c10_searxng_postconditions (resp : SearxngResponse) (maxr : Nat) :
    (scrape_searxng_local resp maxr).length ≤ maxr ∧
    (∀ r ∈ scrape_searxng_local resp maxr,
      r.href ≠ "" ∧ is_blacklisted r.href = false) ∧
    ((scrape_searxng_local resp maxr).map (fun r => get_domain r.href)).Pairwise
      (fun a b => a ≠ b) := by
  match resp with
  | .connError => exact ⟨by simp [scrape_searxng_local, scrape_searxng_local_try],
      by simp [scrape_searxng_local, scrape_searxng_local_try],
      by simp [scrape_searxng_local, scrape_searxng_local_try]⟩
  | .httpStatusError => exact ⟨by simp [scrape_searxng_local, scrape_searxng_local_try],
      by simp [scrape_searxng_local, scrape_searxng_local_try],
      by simp [scrape_searxng_local, scrape_searxng_local_try]⟩
  | .badJson => exact ⟨by simp [scrape_searxng_local, scrape_searxng_local_try],
      by simp [scrape_searxng_local, scrape_searxng_local_try],
      by simp [scrape_searxng_local, scrape_searxng_local_try]⟩
  | .ok none => exact ⟨by simp [scrape_searxng_local, scrape_searxng_local_try],
      by simp [scrape_searxng_local, scrape_searxng_local_try],
      by simp [scrape_searxng_local, scrape_searxng_local_try]⟩
  | .ok (some []) => exact ⟨by simp [scrape_searxng_local, scrape_searxng_local_try],
      by simp [scrape_searxng_local, scrape_searxng_local_try],
      by simp [scrape_searxng_local, scrape_searxng_local_try]⟩
  | .ok (some (r :: rs)) =>
    have h := srxLoop_inv maxr (r :: rs) [] [] (by simp) (by simp) (by simp) (by simp)
    simpa [scrape_searxng_local, scrape_searxng_local_try] using h

/-- Witness for C10 at a concrete backend response. -/
theorem c10_searxng_postconditions_witness :
    ({ title := "No title available", href := "http://a.com/x",
       body := "No description available" } : SearchRecord).href ≠ "" :=
  ((c10_searxng_postconditions
      (.ok (some [{ url := some "http://a.com/x", title := none, content := none }]))
      10).2.1 _ (by decide)).1

/-- Claim C5: for every query, `scrape_searxng_local` returns `[]` when the
backend is unreachable, returns an HTTP error, or yields a malformed
(non-JSON or results-free) response; every exception of the `try` body is
caught, so none escapes to the caller. -/
theorem c5_searxng_error_boundary (resp : SearxngResponse) (maxr : Nat) :
    ((resp = .connError ∨ resp = .httpStatusError ∨ resp = .badJson ∨
      resp = .ok none ∨ resp = .ok (some [])) →
      scrape_searxng_local resp maxr = []) ∧
    (∀ e, scrape_searxng_local_try resp maxr = .error e →
      scrape_searxng_local resp maxr = []) := by
  constructor
  · rintro (rfl | rfl | rfl | rfl | rfl) <;> rfl
  · intro e h
    unfold scrape_searxng_local
    rw [h]

/-- Witness for C5: the unreachable-backend case. -/
theorem c5_searxng_error_boundary_witness :
    scrape_searxng_local .connError 10 = [] ∧
    scrape_searxng_local .badJson 7 = [] :=
  ⟨(c5_searxng_error_boundary .connError 10).1 (Or.inl rfl),
   (c5_searxng_error_boundary .badJson 7).2 .valueError rfl⟩

/-- Counterexample to claim C1 as stated: with quota `0` the dispatcher
checks the quota only after appending a success, so one completed success
makes it return a list of length `1 > 0`. -/
theorem c1_dispatcher_quota_counterexample :
    scrape_batch_parallel [some sampleResult] 0 = [sampleResult] ∧
    ¬ ((scrape_batch_parallel [some sampleResult] 0).length ≤ 0) := by
  constructor
  · rfl
  · decide

/-- Claim C1, amended: for every completion sequence and every quota of at
least one, `scrape_batch_parallel` returns at most `quota` results (the
source checks the quota after each append, so a quota of zero can be
overshot by one; every call site of the repository passes a positive
quota). -/
theorem c1_dispatcher_quota_amended (completions : List (Option ScrapeResult))
    (quota : Nat) (h : 1 ≤ quota) :
    (scrape_batch_parallel completions quota).length ≤ quota :=
  batchLoop_length_le completions [] quota (by simpa using h)

/-- Witness for the amended C1. -/
theorem c1_dispatcher_quota_amended_witness :
    (scrape_batch_parallel [some sampleResult, some sampleResult] 1).length ≤ 1 :=
  c1_dispatcher_quota_amended [some sampleResult, some sampleResult] 1 (by decide)

/-- Counterexample to claim C4 as stated, at the claim's own example input:
the literal strings `a.com/1`, `a.com/2`, `b.com/1` carry no scheme, so
`urlparse` gives them all the empty netloc, they share the normalised
domain `""`, and only the first survives. -/
theorem c4_filter_urls_counterexample :
    filter_urls ["a.com/1", "a.com/2", "b.com/1"] ≠ ["a.com/1", "b.com/1"] ∧
    filter_urls ["a.com/1", "a.com/2", "b.com/1"] = ["a.com/1"] := by
  constructor
  · decide
  · rfl

/-- The loops of `filter_urls` and of the spec-side deduplication agree once
the blacklisted URLs are removed up front (a blacklisted URL never enters
`seen_domains`). -/
theorem filterUrlsGo_eq_firstPerDomainGo : ∀ (urls seen : List String),
    filterUrlsGo urls seen
      = firstPerDomainGo (urls.filter (fun u => !(is_blacklisted u))) seen := by
  intro urls
  induction urls with
  | nil => intro seen; rfl
  | cons u rest ih =>
    intro seen
    by_cases hbl : is_blacklisted u = true
    · rw [show (u :: rest).filter (fun u => !(is_blacklisted u))
          = rest.filter (fun u => !(is_blacklisted u)) by
        simp [List.filter_cons, hbl]]
      rw [show filterUrlsGo (u :: rest) seen = filterUrlsGo rest seen by
        simp only [filterUrlsGo, hbl]
        simp]
      exact ih seen
    · have hbl2 : is_blacklisted u = false := eq_false_of_ne_true hbl
      rw [show (u :: rest).filter (fun u => !(is_blacklisted u))
          = u :: rest.filter (fun u => !(is_blacklisted u)) by
        simp [List.filter_cons, hbl2]]
      by_cases hseen : seen.contains (get_domain u) = true
      · rw [show filterUrlsGo (u :: rest) seen = filterUrlsGo rest seen by
          simp only [filterUrlsGo, hseen, hbl2]
          simp]
        rw [show firstPerDomainGo (u :: rest.filter (fun u => !(is_blacklisted u))) seen
            = firstPerDomainGo (rest.filter (fun u => !(is_blacklisted u))) seen by
          simp only [firstPerDomainGo, hseen]
          simp]
        exact ih seen
      · have hseen2 : seen.contains (get_domain u) = false := eq_false_of_ne_true hseen
        rw [show filterUrlsGo (u :: rest) seen
            = u :: filterUrlsGo rest (get_domain u :: seen) by
          simp only [filterUrlsGo, hseen2, hbl2]
          simp]
        rw [show firstPerDomainGo (u :: rest.filter (fun u => !(is_blacklisted u))) seen
            = u :: firstPerDomainGo (rest.filter (fun u => !(is_blacklisted u)))
                (get_domain u :: seen) by
          simp only [firstPerDomainGo, hseen2]
          simp]
        rw [ih (get_domain u :: seen)]

/-- Claim C4, amended: `filter_urls` keeps exactly the first URL seen for
each normalised domain among the non-blacklisted URLs, preserving order
(blacklisted URLs are dropped and never block their domain); on the
scheme-qualified version of the spec's example the claimed output holds. -/
theorem c4_filter_urls_amended :
    (∀ urls, filter_urls urls
      = firstPerDomainSpec (urls.filter (fun u => !(is_blacklisted u)))) ∧
    filter_urls ["http://a.com/1", "http://a.com/2", "http://b.com/1"]
      = ["http://a.com/1", "http://b.com/1"] := by
  constructor
  · intro urls
    exact filterUrlsGo_eq_firstPerDomainGo urls []
  · rfl

/-- The spec-side normalisation claim C9 describes: scheme removed, host
case-folded, one leading `"www."` stripped, rest of the host intact. -/
def spec_domain_normal (url : String) : String :=
  String.mk (stripLeadingWWW ((netlocOf url).data.map Char.toLower))

/-- Counterexample to claim C9 as stated: `str.replace("www.", "")` removes
every occurrence, not only a leading prefix, so two hosts that differ after
leading-`www.` stripping are mapped to the same domain. -/
theorem c9_get_domain_counterexample :
    get_domain "http://thewww.example.com/a" = get_domain "http://theexample.com/b" ∧
    spec_domain_normal "http://thewww.example.com/a"
      ≠ spec_domain_normal "http://theexample.com/b" := by
  constructor
  · rfl
  · decide

/-- Claim C9, amended: `get_domain` strips the scheme and removes every
occurrence of the substring `"www."` from the case-folded host; whenever the
host (after stripping one leading `"www."`) contains no further `"www."`,
this agrees with the claimed leading-prefix normalisation and the rest of
the host is left intact. -/
theorem c9_get_domain_amended (url : String)
    (h : hasWWW (stripLeadingWWW ((netlocOf url).data.map Char.toLower)) = false) :
    get_domain url = spec_domain_normal url := by
  unfold get_domain spec_domain_normal
  rw [replAll_eq_stripLeading _ h]

/-- Witness for the amended C9: a host with one leading `"www."`. -/
theorem c9_get_domain_amended_witness :
    get_domain "https://www.Example.com/x" = spec_domain_normal "https://www.Example.com/x" :=
  c9_get_domain_amended "https://www.Example.com/x" (by decide)

/-- Claim C3: the dispatcher never raises because an individual fetch erred —
every exception inside the fetch body is absorbed into a `None` return by
the fetch's catch-all handler, and the dispatcher appends only non-null
results, so nulls never count toward the quota. -/
theorem c3_fetch_errors_absorbed :
    (∀ (url : String) (t : Int) (stop : Option StopTrace) (env : FetchEnv) (e : PyErr),
      fetchBody url t stop env = .error e →
      try_scrape_smart_with_better_timeout url t stop env = none) ∧
    (∀ (completions : List (Option ScrapeResult)) (quota : Nat),
      (∀ r ∈ scrape_batch_parallel completions quota, some r ∈ completions) ∧
      (scrape_batch_parallel completions quota).length
        ≤ completions.countP (fun o => o.isSome)) := by
  constructor
  · intro url t stop env e h
    unfold try_scrape_smart_with_better_timeout
    split
    · rfl
    · rw [h]
  · intro completions quota
    constructor
    · intro r hr
      rcases batchLoop_mem completions [] quota r hr with h | h
      · simp at h
      · exact h
    · simpa using batchLoop_count completions [] quota

/-- Witness for C3: a raising HTTP request yields `None`, and a success
returned by the dispatcher did arrive as a completion. -/
theorem c3_fetch_errors_absorbed_witness :
    try_scrape_smart_with_better_timeout "http://a.com/x" 6 none errFetchEnv = none ∧
    some sampleResult ∈ [none, some sampleResult] :=
  ⟨c3_fetch_errors_absorbed.1 "http://a.com/x" 6 none errFetchEnv .requestException rfl,
   (c3_fetch_errors_absorbed.2 [none, some sampleResult] 1).1 sampleResult (by decide)⟩

/-- Shape of every fetch outcome: `None`, a direct-stage success, or a
fallback success — and a fallback success is only produced with the stop
flags at the fallback checkpoints unset. -/
theorem try_scrape_shape (url : String) (t : Int) (stop : Option StopTrace)
    (env : FetchEnv) :
    try_scrape_smart_with_better_timeout url t stop env = none ∨
    (∃ c, try_scrape_smart_with_better_timeout url t stop env
        = some { url := url, method := "requests+smart", content := c }) ∨
    ((stop.map (fun tr => tr.s4)).getD false = false ∧
     (stop.map (fun tr => tr.s5)).getD false = false ∧
     ∃ c, try_scrape_smart_with_better_timeout url t stop env
        = some { url := url, method := "trafilatura+smart", content := c }) := by
  by_cases c1 : (stop.map (fun tr => tr.s1)).getD false = true
  · exact Or.inl (by simp [try_scrape_smart_with_better_timeout, c1])
  by_cases c2 : (stop.map (fun tr => tr.s2)).getD false = true
  · exact Or.inl (by simp [try_scrape_smart_with_better_timeout, fetchBody, c1, c2])
  rcases henv : env.response with e | hr
  · exact Or.inl (by simp [try_scrape_smart_with_better_timeout, fetchBody, c1, c2, henv])
  by_cases c3 : (stop.map (fun tr => tr.s3)).getD false = true
  · exact Or.inl (by simp [try_scrape_smart_with_better_timeout, fetchBody, c1, c2, henv, c3])
  by_cases hdir : hr.ok = true ∧
      direct_success_test (extract_smart_content hr.text url) = true
  · refine Or.inr (Or.inl ⟨extract_smart_content hr.text url, ?_⟩)
    simp [try_scrape_smart_with_better_timeout, fetchBody, c1, c2, henv, c3,
      hdir.1, hdir.2]
  have hds : hr.ok = false ∨
      direct_success_test (extract_smart_content hr.text url) = false := by
    rcases Bool.eq_false_or_eq_true hr.ok with hok | hok
    · rcases Bool.eq_false_or_eq_true
          (direct_success_test (extract_smart_content hr.text url)) with hs | hs
      · exact absurd ⟨hok, hs⟩ hdir
      · exact Or.inr hs
    · exact Or.inl hok
  by_cases c4 : (stop.map (fun tr => tr.s4)).getD false = true
  · refine Or.inl ?_
    rcases hds with h9 | h9 <;>
      simp [try_scrape_smart_with_better_timeout, fetchBody, c1, c2, henv, c3, h9, c4]
  by_cases htime : 2 < t - env.elapsedAtFallback
  · rcases hdl : env.downloaded with e | dl
    · refine Or.inl ?_
      rcases hds with h9 | h9 <;>
        simp [try_scrape_smart_with_better_timeout, fetchBody, c1, c2, henv, c3,
          h9, c4, htime, hdl]
    · by_cases c5 : (stop.map (fun tr => tr.s5)).getD false = true
      · refine Or.inl ?_
        rcases hds with h9 | h9 <;>
          simp [try_scrape_smart_with_better_timeout, fetchBody, c1, c2, henv, c3,
            h9, c4, htime, hdl, c5]
      · match dl with
        | none =>
          refine Or.inl ?_
          rcases hds with h9 | h9 <;>
            simp [try_scrape_smart_with_better_timeout, fetchBody, c1, c2, henv, c3,
              h9, c4, htime, hdl, c5]
        | some d =>
          refine Or.inr (Or.inr ⟨by simpa using c4, by simpa using c5,
            extract_smart_content d url, ?_⟩)
          rcases hds with h9 | h9 <;>
            simp [try_scrape_smart_with_better_timeout, fetchBody, c1, c2, henv, c3,
              h9, c4, htime, hdl, c5]
  · refine Or.inl ?_
    rcases hds with h9 | h9 <;>
      simp [try_scrape_smart_with_better_timeout, fetchBody, c1, c2, henv, c3,
        h9, c4, htime]

/-- Claim C6: whenever the fetch samples the shared stop event at one of its
five check points and finds it set, it returns `None` — at the three
checkpoints up to the HTTP response this holds outright, and a set flag at
the fallback checkpoints means no fallback result is ever surfaced (a fetch
that already returned a completed direct-stage success no longer samples the
later checkpoints). -/
theorem c6_stop_event_checkpoints (url : String) (t : Int) (tr : StopTrace)
    (env : FetchEnv) :
    ((tr.s1 || tr.s2 || tr.s3) = true →
      try_scrape_smart_with_better_timeout url t (some tr) env = none) ∧
    ((tr.s4 || tr.s5) = true →
      try_scrape_smart_with_better_timeout url t (some tr) env = none ∨
      ∃ c, try_scrape_smart_with_better_timeout url t (some tr) env
        = some { url := url, method := "requests+smart", content := c }) := by
  obtain ⟨s1, s2, s3, s4, s5⟩ := tr
  constructor
  · intro h
    cases s1 <;> cases s2 <;> cases s3 <;>
      rcases henv : env.response with e | hr <;>
      simp_all [try_scrape_smart_with_better_timeout, fetchBody]
  · intro h
    rcases try_scrape_shape url t (some ⟨s1, s2, s3, s4, s5⟩) env with h0 | h0 | h0
    · exact Or.inl h0
    · exact Or.inr h0
    · exfalso
      have ha : s4 = false := by simpa using h0.1
      have hb : s5 = false := by simpa using h0.2.1
      rw [ha, hb] at h
      simp at h

/-- Witness for C6: the stop event set before the fetch starts. -/
theorem c6_stop_event_checkpoints_witness :
    try_scrape_smart_with_better_timeout "http://a.com/x" 6
      (some ⟨true, false, false, false, false⟩) errFetchEnv = none :=
  (c6_stop_event_checkpoints "http://a.com/x" 6
    ⟨true, false, false, false, false⟩ errFetchEnv).1 (by decide)

/-! ### Soups used for the extraction claims -/

/-- A parse tree on which every query fails. -/
def emptySoup : Soup :=
  { titleTag := none, firstH1 := none, firstP := none, h2Texts := [],
    metaDescription := none, selOne := [], selAll := [], byId := [],
    specTables := [], decomposedParagraphTexts := [], headingBlocks := [],
    tableRowCells := [] }

/-- A long article body with none of the cruft or skip words. -/
def articleText : String :=
  "The Fast Path laptop stand is a compact aluminium stand for portable computers. It folds flat, holds the screen at eye level, weighs very little, and ships with a cloth bag. Reviewers praise the hinge and the finish of the plate."

/-- A parse tree whose `article` node carries substantial content, so the
generic extractor finds a nonempty `main_content`. -/
def richSoup : Soup :=
  { emptySoup with selOne := [("article", articleText)] }

set_option maxRecDepth 100000 in
/-- Counterexample to claim C7 as stated: the very same page content passes
the direct-stage success test under the generic extractor but fails it when
the URL routes to the Amazon extractor, whose result dict carries neither
`main_content` nor `key_sections` — the overlay does gate success. -/
theorem c7_amazon_overlay_counterexample :
    direct_success_test (extract_smart_content richSoup "http://example.com/item") = true ∧
    direct_success_test (extract_smart_content richSoup "http://amazon.com/item") = false := by
  constructor
  · decide
  · decide

/-- Claim C7, amended: routing to the Amazon extractor replaces the result
schema; for every parse tree, a URL containing `"amazon."` yields a result
with no `main_content`/`key_sections` keys, so it always fails the
direct-stage success test regardless of content (such pages can succeed
only through the fallback stage, whose test accepts any extraction dict). -/
theorem c7_amazon_overlay_amended (soup : Soup) (url : String)
    (h : strContains "amazon." url = true) :
    direct_success_test (extract_smart_content soup url) = false := by
  unfold extract_smart_content
  rw [if_pos h]
  simp [extract_amazon_smart, direct_success_test, ExtractResult.mainContentGet,
    ExtractResult.keySectionsTruthy]

/-- Witness for the amended C7. -/
theorem c7_amazon_overlay_amended_witness :
    direct_success_test (extract_smart_content emptySoup "http://amazon.com/x") = false :=
  c7_amazon_overlay_amended emptySoup "http://amazon.com/x" (by decide)

/-- Claim C8: the Tiered Fetcher's extraction is idempotent — two
invocations of `extract_smart_content` on the same static fixture and URL
yield the same extracted fields.  In the embedding this is definitional:
the source re-parses the HTML inside each call (the soup mutated by
`decompose` never escapes) and consults no mutable global state, so the
extraction is a pure function of the fixture and the URL. -/
theorem c8_extraction_idempotent (fixture : Soup) (url : String) :
    extract_smart_content fixture url = extract_smart_content fixture url :=
  rfl

/-! ### Environment for the Phase Sequencer claim -/

/-- Nine search hits with distinct, non-blacklisted domains, so that the
filtered candidate list has more than 8 entries and phase 2 is in range. -/
def seqRawResults : List RawResult :=
  [{ url := some "http://a0.com/x", title := none, content := none },
   { url := some "http://a1.com/x", title := none, content := none },
   { url := some "http://a2.com/x", title := none, content := none },
   { url := some "http://a3.com/x", title := none, content := none },
   { url := some "http://a4.com/x", title := none, content := none },
   { url := some "http://a5.com/x", title := none, content := none },
   { url := some "http://a6.com/x", title := none, content := none },
   { url := some "http://a7.com/x", title := none, content := none },
   { url := some "http://a8.com/x", title := none, content := none }]

/-- A sequencer run in which the search takes 1 time unit, no fetch ever
completes, phase 1 runs for its full 15-second per-site budget and phase 2
for its 12-second budget, and Playwright is not importable. -/
def seqEnvDemo : SeqEnv :=
  { backend := .ok (some seqRawResults),
    batch1Completions := [], batch2Completions := [],
    playwrightCompletions := [], playwrightAvailable := false,
    searchDuration := 1, batch1Duration := 15, batch2Duration := 12,
    playwrightDuration := 20 }

set_option maxRecDepth 100000 in
/-- Counterexample to claim C2 as stated: with a global deadline of `0` —
shorter than any single fetch's timeout — the deadline is already exceeded
after the search and phase 1 (1 + 15 > 0 time units), yet the sequencer
still executes phase 2 (`phases = [1, 2]`) and accumulates 28 time units
instead of skipping the remaining phases and returning the partial result:
the source never consults `max_total_time`. -/
theorem c2_sequencer_deadline_counterexample :
    scrape_multiple_sites_truly_parallel seqEnvDemo 2 0 15
      = { result := none, elapsed := 28, phases := [1, 2] } ∧
    ¬ (seqEnvDemo.searchDuration + seqEnvDemo.batch1Duration ≤ 0) := by
  constructor
  · rfl
  · decide

/-- Claim C2, amended: the active `scrape_multiple_sites_truly_parallel`
accepts `max_total_time` but never consults it — its result, elapsed time
and executed phases are identical for any two global deadlines; phases are
skipped only when the quota is already met (or candidates/Playwright are
unavailable), never because the deadline was exceeded. -/
theorem c2_sequencer_deadline_amended (env : SeqEnv)
    (max_sites max_search_results t1 t2 : Nat) :
    scrape_multiple_sites_truly_parallel env max_sites t1 max_search_results
      = scrape_multiple_sites_truly_parallel env max_sites t2 max_search_results :=
  rfl
